import Mathlib

/-!
Verification development for the spend_sync KPI aggregation and
reconciliation engine.  Python source files are shallowly embedded:
`datetime.date` becomes `PyDate` (proleptic Gregorian calendar, as in
CPython), machine floats that only ever hold exact decimal/monetary data
are modelled as rationals, fallible code returns `Option`, and remote
Airtable calls are modelled by explicit read functions and returned lists
of write operations.
-/

namespace SpendSync

/-! ## Calendar model (CPython `datetime.date`) -/

/-- Proleptic Gregorian calendar date, as CPython's `datetime.date`.
The structure itself carries no validity proof; theorems that need
validity assume `PyDate.Valid`. -/
structure PyDate where
  year : Nat
  month : Nat
  day : Nat
deriving DecidableEq, Repr

/-- Gregorian leap-year rule (as `calendar.isleap`). -/
def is_leap_year (y : Nat) : Bool :=
  (y % 4 == 0 && y % 100 != 0) || y % 400 == 0

/-- Number of days of month `m` of year `y` (as `calendar.monthrange(y, m)[1]`
for `1 ≤ m ≤ 12`; `0` outside that range, where CPython would raise). -/
def days_in_month (y : Nat) (m : Nat) : Nat :=
  match m with
  | 1 => 31
  | 2 => if is_leap_year y then 29 else 28
  | 3 => 31
  | 4 => 30
  | 5 => 31
  | 6 => 30
  | 7 => 31
  | 8 => 31
  | 9 => 30
  | 10 => 31
  | 11 => 30
  | 12 => 31
  | _ => 0

/-- A structurally valid date (what `datetime.date` would accept). -/
def PyDate.Valid (d : PyDate) : Prop :=
  1 ≤ d.year ∧ 1 ≤ d.month ∧ d.month ≤ 12 ∧ 1 ≤ d.day ∧ d.day ≤ days_in_month d.year d.month

instance (d : PyDate) : Decidable d.Valid := by
  unfold PyDate.Valid; exact inferInstance

/-- Days in all years strictly before year `y` (proleptic Gregorian). -/
def days_before_year (y : Nat) : Nat :=
  (y - 1) * 365 + (y - 1) / 4 - (y - 1) / 100 + (y - 1) / 400

/-- Days in the months of year `y` strictly before month `m`. -/
def days_before_month (y : Nat) : Nat → Nat
  | 0 => 0
  | 1 => 0
  | m + 1 => days_before_month y m + days_in_month y m

/-- Model of `datetime.date.toordinal`: day number with `0001-01-01` as day 1. -/
def to_ordinal (d : PyDate) : Nat :=
  days_before_year d.year + days_before_month d.year d.month + d.day

/-- Model of `datetime.date.weekday`: Monday is `0`, Sunday is `6`. -/
def py_weekday (d : PyDate) : Nat :=
  (to_ordinal d + 6) % 7

/-- Strict chronological order on dates (lexicographic; agrees with
CPython's `date.__lt__` on valid dates). -/
def PyDate.lt (a b : PyDate) : Prop :=
  a.year < b.year ∨ (a.year = b.year ∧
    (a.month < b.month ∨ (a.month = b.month ∧ a.day < b.day)))

/-- Chronological order on dates (lexicographic). -/
def PyDate.le (a b : PyDate) : Prop :=
  a.year < b.year ∨ (a.year = b.year ∧
    (a.month < b.month ∨ (a.month = b.month ∧ a.day ≤ b.day)))

instance (a b : PyDate) : Decidable (a.lt b) := by
  unfold PyDate.lt; exact inferInstance

instance (a b : PyDate) : Decidable (a.le b) := by
  unfold PyDate.le; exact inferInstance

/-- Python's `min(a, b)` on two dates: returns the first argument on ties. -/
def py_min_date (a b : PyDate) : PyDate :=
  if b.lt a then b else a

/-! ## `date_windows.py` -/

/-- Naive-or-aware instant, as CPython's `datetime.datetime`: a date, a
time of day, and an optional fixed UTC offset in seconds (`tzinfo`). -/
structure PyDateTime where
  date : PyDate
  hour : Nat
  minute : Nat
  second : Nat
  microsecond : Nat
  tz_offset_seconds : Option Int
deriving DecidableEq, Repr

/-- Model of `first_weekday_of_month` from `date_windows.py`:
`1 + (weekday - date(year, month, 1).weekday()) % 7` with Python integer
`%` (always non-negative here). -/
def first_weekday_of_month (year month weekday : Nat) : Int :=
  1 + ((weekday : Int) - (py_weekday ⟨year, month, 1⟩ : Int)) % 7

/-- Model of `last_weekday_of_month` from `date_windows.py`:
`last_day - (date(year, month, last_day).weekday() - weekday) % 7`. -/
def last_weekday_of_month (year month weekday : Nat) : Int :=
  (days_in_month year month : Int) -
    ((py_weekday ⟨year, month, days_in_month year month⟩ : Int) - (weekday : Int)) % 7

/-- Model of `nth_weekday_of_month` from `date_windows.py`: the nth occurrence when
it fits in the month, otherwise the last occurrence. -/
def nth_weekday_of_month (year month weekday : Nat) (n : Int) : Int :=
  if first_weekday_of_month year month weekday + (n - 1) * 7 ≤ (days_in_month year month : Int) then
    first_weekday_of_month year month weekday + (n - 1) * 7
  else last_weekday_of_month year month weekday

/-- The year/month of the calendar month before month `month` of `year`
(the wrap computation inlined in `monthly_windows` and `daily_windows`). -/
def prev_year_month (year month : Nat) : Nat × Nat :=
  if month = 1 then (year - 1, 12) else (year, month - 1)

/-- Model of `monthly_windows` from `date_windows.py`. -/
def monthly_windows (now : PyDateTime) : PyDate × PyDate × PyDate × PyDate :=
  let current_month_start : PyDate := ⟨now.date.year, now.date.month, 1⟩
  let current_range_end : PyDate := now.date
  let pym := prev_year_month now.date.year now.date.month
  let previous_month_start : PyDate := ⟨pym.1, pym.2, 1⟩
  let previous_month_end : PyDate := ⟨pym.1, pym.2, days_in_month pym.1 pym.2⟩
  (previous_month_start, previous_month_end, current_month_start, current_range_end)

/-- Model of `daily_windows` from `date_windows.py`: today's date paired with the
comparable weekday occurrence in the previous month.  Python `//` is
floor division, i.e. `Int.fdiv`. -/
def daily_windows (now : PyDateTime) : PyDate × PyDate :=
  let today := now.date
  let weekday := py_weekday today
  let first_occurrence := first_weekday_of_month today.year today.month weekday
  let nth : Int := 1 + max (((today.day : Int) - first_occurrence).fdiv 7) 0
  let pym := prev_year_month today.year today.month
  let prev_day := nth_weekday_of_month pym.1 pym.2 weekday nth
  let previous_date : PyDate := ⟨pym.1, pym.2, prev_day.toNat⟩
  (today, previous_date)

/-- Model of `required_start_date` from `date_windows.py`. -/
def required_start_date (now : PyDateTime) : PyDate :=
  let prev_daily := (daily_windows now).2
  let prev_month_start := (monthly_windows now).1
  py_min_date prev_daily prev_month_start

/-! ## Python value model

Airtable record fields are loosely typed Python objects.  `AValue` models
the values the source inspects.  Python's `str()` of non-string values
(list/dict/float reprs) is carried as data on each constructor, since no
verified claim depends on the text of such reprs. -/

/-- A loosely typed Airtable field value, as seen by the Python code. -/
inductive AValue where
  | vNull
  | vStr (s : String)
  | vInt (n : Int)
  | vFloat (q : Rat) (rep : String)
  | vList (items : List AValue) (rep : String)
  | vDict (entries : List (String × AValue)) (rep : String)
  | vDate (d : PyDate) (rep : String)
  | vDatetime (d : PyDateTime) (rep : String)

/-- Python `str(value)`.  Exact for `None`, strings and ints; for other
constructors the carried repr is returned. -/
def pyStr : AValue → String
  | .vNull => "None"
  | .vStr s => s
  | .vInt n => toString n
  | .vFloat _ r => r
  | .vList _ r => r
  | .vDict _ r => r
  | .vDate _ r => r
  | .vDatetime _ r => r

/-- Python truthiness of an `AValue`. -/
def py_truthy : AValue → Bool
  | .vNull => false
  | .vStr s => s ≠ ""
  | .vInt n => n ≠ 0
  | .vFloat q _ => q ≠ 0
  | .vList items _ => !items.isEmpty
  | .vDict entries _ => !entries.isEmpty
  | .vDate _ _ => true
  | .vDatetime _ _ => true

/-- Characters stripped by Python's `str.strip()` (ASCII whitespace). -/
def is_py_space (c : Char) : Bool :=
  c = ' ' || c = '\t' || c = '\n' || c = '\r' || c = Char.ofNat 11 || c = Char.ofNat 12

/-- Python `str.strip()`. -/
def py_strip (s : String) : String :=
  String.mk (((s.toList.dropWhile is_py_space).reverse.dropWhile is_py_space).reverse)

/-- Python `str.lower()` restricted to ASCII letters (every enumeration
constant compared in the source is ASCII). -/
def py_lower_char (c : Char) : Char :=
  if 'A' ≤ c ∧ c ≤ 'Z' then Char.ofNat (c.toNat + 32) else c

/-- Python `str.lower()` (ASCII). -/
def py_lower (s : String) : String :=
  String.mk (s.toList.map py_lower_char)

/-- A record's `fields` mapping: field name to value, unique keys. -/
abbrev Fields := List (String × AValue)

/-- Model of `key in fields` followed by `fields[key]`: first binding of `key`. -/
def field_lookup (fields : Fields) (key : String) : Option AValue :=
  fields.lookup key

/-- Model of `_resolve_field(fields, preferred, *fallbacks)` from `category_kpi.py`
(also the local `resolve_field` in `update_category_monthly_counts`):
value of the first present key, else Python `None`. -/
def resolve_field (fields : Fields) : List String → AValue
  | [] => .vNull
  | k :: rest =>
    match field_lookup fields k with
    | some v => v
    | none => resolve_field fields rest

/-- Model of `_normalize_expected` from `category_kpi.py`. -/
def normalize_expected (text : String) : String :=
  py_lower (py_strip text)

/-- Model of `_normalized` from `category_kpi.py`: case/whitespace-insensitive
normalization of an enumeration-ish value. -/
def normalized : AValue → String
  | .vNull => ""
  | .vDict entries r =>
    match entries.lookup "name" with
    | some (.vStr nm) => py_lower (py_strip nm)
    | _ => py_lower (py_strip r)
  | .vList (v :: _) _ => normalized v
  | .vList [] r => py_lower (py_strip r)
  | v => py_lower (py_strip (pyStr v))

/-- Digit list (most significant first) to the natural number it denotes. -/
def digits_to_nat (ds : List Char) : Nat :=
  ds.foldl (fun a c => a * 10 + (c.toNat - 48)) 0

/-- Model of Python `float(text)` on finite decimal literals: optional
sign, digits with optional decimal point, optional exponent.  Special
values (`inf`, `nan`) and underscore grouping never occur in this
pipeline's data and are modelled as unparseable. -/
def py_float_of_string (s : String) : Option Rat :=
  let cs := s.toList
  let sign : Rat := match cs with | '-' :: _ => -1 | _ => 1
  let cs := match cs with | '+' :: rest => rest | '-' :: rest => rest | _ => cs
  let intPart := cs.takeWhile Char.isDigit
  let cs1 := cs.dropWhile Char.isDigit
  let fracPart :=
    match cs1 with
    | '.' :: rest => rest.takeWhile Char.isDigit
    | _ => []
  let cs2 :=
    match cs1 with
    | '.' :: rest => rest.dropWhile Char.isDigit
    | _ => cs1
  if intPart = [] ∧ fracPart = [] then none
  else
    let mantissa : Rat :=
      (digits_to_nat intPart : Rat) + (digits_to_nat fracPart : Rat) / ((10 : Rat) ^ fracPart.length)
    match cs2 with
    | [] => some (sign * mantissa)
    | e :: rest =>
      if e = 'e' ∨ e = 'E' then
        let esign : Int := match rest with | '-' :: _ => -1 | _ => 1
        let rest := match rest with | '+' :: r => r | '-' :: r => r | _ => rest
        let eDigits := rest.takeWhile Char.isDigit
        if eDigits = [] ∨ rest.dropWhile Char.isDigit ≠ [] then none
        else
          let mag : Rat := (10 : Rat) ^ digits_to_nat eDigits
          some (sign * (if esign = 1 then mantissa * mag else mantissa / mag))
      else none

/-- Python `text.replace(",", "")`. -/
def py_remove_commas (s : String) : String :=
  String.mk (s.toList.filter (fun c => c ≠ ','))

/-- Model of `_to_number` from `category_kpi.py`: int/float pass through, strings
are stripped, de-comma'd and parsed as floats, everything else fails. -/
def to_number : AValue → Option Rat
  | .vInt n => some (n : Rat)
  | .vFloat q _ => some q
  | .vStr s =>
    let text := py_strip s
    if text = "" then none
    else py_float_of_string (py_remove_commas text)
  | _ => none

/-- Order-preserving first-occurrence deduplication
(`list(dict.fromkeys(...))`). -/
def py_dedup : List String → List String :=
  go []
where
  /-- Model of `seen` accumulates labels already emitted. -/
  go (seen : List String) : List String → List String
    | [] => []
    | x :: xs => if x ∈ seen then go seen xs else x :: go (x :: seen) xs

/-- Python `entry.split(",")` on a character list. -/
def split_commas : List Char → List (List Char)
  | [] => [[]]
  | c :: rest =>
    let r := split_commas rest
    if c = ',' then [] :: r
    else
      match r with
      | [] => [[c]]
      | h :: t => (c :: h) :: t

/-- Model of `_extract_categories` from `category_kpi.py`: list/str to trimmed,
comma-split, deduplicated category labels. -/
def extract_categories (value : AValue) : List String :=
  let entries : List String :=
    match value with
    | .vList items _ => (items.map pyStr).filter (fun s => py_strip s ≠ "")
    | .vStr s => [s]
    | _ => []
  let results :=
    entries.foldr (fun entry acc =>
      ((((split_commas entry.toList).map (fun cs => py_strip (String.mk cs)))).filter
        (fun l => l ≠ "")) ++ acc) []
  py_dedup results

/-! ## CPython `strptime` for the fixed format strings of the source

The source only ever calls `strptime` with the formats listed in
`category_kpi.py` and `kpi.py`.  Each directive consumes input exactly as
the alternation in CPython's `_strptime.TimeRE` does; for these formats
every directive is followed by a non-digit literal or the end of input,
so prioritized (first-alternative) matching coincides with the regex
semantics and no cross-token backtracking can occur. -/

/-- A compiled `strptime` format token. -/
inductive FmtTok where
  | lit (c : Char)
  | dY
  | dm
  | dd
  | dH
  | dM
  | dS
  | dI
  | dp

/-- Compile a format string into tokens (directives used by the source). -/
def parse_format : List Char → Option (List FmtTok)
  | [] => some []
  | '%' :: c :: rest =>
    let tok : Option FmtTok :=
      match c with
      | 'Y' => some FmtTok.dY
      | 'm' => some FmtTok.dm
      | 'd' => some FmtTok.dd
      | 'H' => some FmtTok.dH
      | 'M' => some FmtTok.dM
      | 'S' => some FmtTok.dS
      | 'I' => some FmtTok.dI
      | 'p' => some FmtTok.dp
      | _ => none
    match tok, parse_format rest with
    | some t, some ts => some (t :: ts)
    | _, _ => none
  | c :: rest =>
    match parse_format rest with
    | some ts => some (FmtTok.lit c :: ts)
    | none => none

/-- Model of `%Y`: exactly four digits. -/
def match_Y : List Char → Option (Nat × List Char)
  | a :: b :: c :: d :: rest =>
    if a.isDigit && b.isDigit && c.isDigit && d.isDigit then
      some (digits_to_nat [a, b, c, d], rest)
    else none
  | _ => none

/-- Model of `%m`/`%I`: regex `1[0-2]|0[1-9]|[1-9]`. -/
def match_m : List Char → Option (Nat × List Char)
  | a :: b :: rest =>
    if a = '1' && b.isDigit && b ≤ '2' then some (10 + (b.toNat - 48), rest)
    else if a = '0' && b.isDigit && '1' ≤ b then some (b.toNat - 48, rest)
    else if a.isDigit && '1' ≤ a then some (a.toNat - 48, b :: rest)
    else none
  | [a] => if a.isDigit && '1' ≤ a then some (a.toNat - 48, []) else none
  | [] => none

/-- Model of `%d`: regex `3[01]|[12]\d|0[1-9]|[1-9]`. -/
def match_d : List Char → Option (Nat × List Char)
  | a :: b :: rest =>
    if a = '3' && b.isDigit && b ≤ '1' then some (30 + (b.toNat - 48), rest)
    else if (a = '1' || a = '2') && b.isDigit then
      some ((a.toNat - 48) * 10 + (b.toNat - 48), rest)
    else if a = '0' && b.isDigit && '1' ≤ b then some (b.toNat - 48, rest)
    else if a.isDigit && '1' ≤ a then some (a.toNat - 48, b :: rest)
    else none
  | [a] => if a.isDigit && '1' ≤ a then some (a.toNat - 48, []) else none
  | [] => none

/-- Model of `%H`: regex `2[0-3]|[0-1]\d|\d`. -/
def match_H : List Char → Option (Nat × List Char)
  | a :: b :: rest =>
    if a = '2' && b.isDigit && b ≤ '3' then some (20 + (b.toNat - 48), rest)
    else if (a = '0' || a = '1') && b.isDigit then
      some ((a.toNat - 48) * 10 + (b.toNat - 48), rest)
    else if a.isDigit then some (a.toNat - 48, b :: rest)
    else none
  | [a] => if a.isDigit then some (a.toNat - 48, []) else none
  | [] => none

/-- Model of `%M`: regex `[0-5]\d|\d`. -/
def match_M : List Char → Option (Nat × List Char)
  | a :: b :: rest =>
    if a.isDigit && a ≤ '5' && b.isDigit then
      some ((a.toNat - 48) * 10 + (b.toNat - 48), rest)
    else if a.isDigit then some (a.toNat - 48, b :: rest)
    else none
  | [a] => if a.isDigit then some (a.toNat - 48, []) else none
  | [] => none

/-- Model of `%S`: regex `6[01]|[0-5]\d|\d`. -/
def match_S : List Char → Option (Nat × List Char)
  | a :: b :: rest =>
    if a = '6' && b.isDigit && b ≤ '1' then some (60 + (b.toNat - 48), rest)
    else if a.isDigit && a ≤ '5' && b.isDigit then
      some ((a.toNat - 48) * 10 + (b.toNat - 48), rest)
    else if a.isDigit then some (a.toNat - 48, b :: rest)
    else none
  | [a] => if a.isDigit then some (a.toNat - 48, []) else none
  | [] => none

/-- Model of `%p`: `AM`/`PM`, case-insensitive; `true` means PM. -/
def match_p : List Char → Option (Bool × List Char)
  | a :: b :: rest =>
    if (a = 'A' || a = 'a') && (b = 'M' || b = 'm') then some (false, rest)
    else if (a = 'P' || a = 'p') && (b = 'M' || b = 'm') then some (true, rest)
    else none
  | _ => none

/-- A literal: whitespace in the format matches one or more whitespace
characters (CPython replaces it by `\s+`), anything else matches itself. -/
def match_lit (c : Char) : List Char → Option (List Char)
  | [] => none
  | x :: rest =>
    if is_py_space c then
      if is_py_space x then some (rest.dropWhile is_py_space) else none
    else if x = c then some rest
    else none

/-- Parsed-field accumulator with CPython's `strptime` defaults. -/
structure StrpAcc where
  y : Nat := 1900
  mo : Nat := 1
  d : Nat := 1
  h : Nat := 0
  mi : Nat := 0
  s : Nat := 0
  h12 : Option Nat := none
  pm : Option Bool := none

/-- Run the compiled format over the input; the whole input must be
consumed (CPython raises when characters remain). -/
def run_format : List FmtTok → List Char → StrpAcc → Option StrpAcc
  | [], [], acc => some acc
  | [], _ :: _, _ => none
  | t :: ts, cs, acc =>
    match t with
    | .lit c =>
      match match_lit c cs with
      | some rest => run_format ts rest acc
      | none => none
    | .dY =>
      match match_Y cs with
      | some (v, rest) => run_format ts rest { acc with y := v }
      | none => none
    | .dm =>
      match match_m cs with
      | some (v, rest) => run_format ts rest { acc with mo := v }
      | none => none
    | .dd =>
      match match_d cs with
      | some (v, rest) => run_format ts rest { acc with d := v }
      | none => none
    | .dH =>
      match match_H cs with
      | some (v, rest) => run_format ts rest { acc with h := v }
      | none => none
    | .dM =>
      match match_M cs with
      | some (v, rest) => run_format ts rest { acc with mi := v }
      | none => none
    | .dS =>
      match match_S cs with
      | some (v, rest) => run_format ts rest { acc with s := v }
      | none => none
    | .dI =>
      match match_m cs with
      | some (v, rest) => run_format ts rest { acc with h12 := some v }
      | none => none
    | .dp =>
      match match_p cs with
      | some (v, rest) => run_format ts rest { acc with pm := some v }
      | none => none

/-- Model of `datetime.strptime(s, fmt)` for the source's formats: a naive
datetime, or `none` where CPython raises `ValueError`. -/
def py_strptime (fmt s : String) : Option PyDateTime :=
  match parse_format fmt.toList with
  | none => none
  | some toks =>
    match run_format toks s.toList {} with
    | none => none
    | some acc =>
      let hour :=
        match acc.h12, acc.pm with
        | some hv, some true => if hv = 12 then 12 else hv + 12
        | some hv, some false => if hv = 12 then 0 else hv
        | some hv, none => hv
        | none, _ => acc.h
      if 1 ≤ acc.y ∧ acc.y ≤ 9999 ∧ 1 ≤ acc.d ∧
          acc.d ≤ days_in_month acc.y acc.mo ∧ acc.s ≤ 59 then
        some ⟨⟨acc.y, acc.mo, acc.d⟩, hour, acc.mi, acc.s, 0, none⟩
      else none

/-! ## CPython `fromisoformat`

Modelled for the dashed extended forms plus the 8-digit basic date form
(Python ≥ 3.11).  ISO week dates and basic-format times, which never
occur in Airtable exports, are modelled as unparseable. -/

/-- Exactly two digits. -/
def parse_2digits : List Char → Option (Nat × List Char)
  | a :: b :: rest =>
    if a.isDigit && b.isDigit then some ((a.toNat - 48) * 10 + (b.toNat - 48), rest)
    else none
  | _ => none

/-- Model of `date.fromisoformat` on a whole string: `YYYY-MM-DD` or `YYYYMMDD`. -/
def date_fromisoformat (s : String) : Option PyDate :=
  let build (y mo d : Nat) : Option PyDate :=
    if 1 ≤ y ∧ 1 ≤ mo ∧ mo ≤ 12 ∧ 1 ≤ d ∧ d ≤ days_in_month y mo then
      some ⟨y, mo, d⟩
    else none
  match s.toList with
  | [y1, y2, y3, y4, '-', m1, m2, '-', d1, d2] =>
    if [y1, y2, y3, y4, m1, m2, d1, d2].all Char.isDigit then
      build (digits_to_nat [y1, y2, y3, y4]) (digits_to_nat [m1, m2]) (digits_to_nat [d1, d2])
    else none
  | [y1, y2, y3, y4, m1, m2, d1, d2] =>
    if [y1, y2, y3, y4, m1, m2, d1, d2].all Char.isDigit then
      build (digits_to_nat [y1, y2, y3, y4]) (digits_to_nat [m1, m2]) (digits_to_nat [d1, d2])
    else none
  | _ => none

/-- Fractional seconds after `.` or `,`: one to six digits (scaled to
microseconds), and no digit may follow. -/
def parse_frac : List Char → Option (Nat × List Char) :=
  fun cs =>
    let ds := cs.takeWhile Char.isDigit
    let rest := cs.dropWhile Char.isDigit
    if ds.length = 0 ∨ 6 < ds.length then none
    else some (digits_to_nat ds * 10 ^ (6 - ds.length), rest)

/-- A UTC offset suffix: `Z`/`z`, or `±HH[:MM[:SS]]`, or `±HHMM`; the
whole remaining input must be consumed.  Result in seconds. -/
def parse_tz : List Char → Option Int
  | [] => none
  | ['Z'] => some 0
  | ['z'] => some 0
  | c :: rest =>
    if c = '+' ∨ c = '-' then
      let sign : Int := if c = '-' then -1 else 1
      match parse_2digits rest with
      | none => none
      | some (hh, rest1) =>
        if 23 < hh then none
        else
          match rest1 with
          | [] => some (sign * (hh * 3600 : Nat))
          | ':' :: rest2 =>
            match parse_2digits rest2 with
            | none => none
            | some (mm, rest3) =>
              if 59 < mm then none
              else
                match rest3 with
                | [] => some (sign * (hh * 3600 + mm * 60 : Nat))
                | ':' :: rest4 =>
                  match parse_2digits rest4 with
                  | some (ss, []) =>
                    if 59 < ss then none
                    else some (sign * (hh * 3600 + mm * 60 + ss : Nat))
                  | _ => none
                | _ => none
          | _ =>
            match parse_2digits rest1 with
            | some (mm, []) =>
              if 59 < mm then none
              else some (sign * (hh * 3600 + mm * 60 : Nat))
            | _ => none
    else none

/-- The time-of-day (and optional offset) tail of an ISO datetime:
`HH[:MM[:SS[.ffffff]]]` followed by an optional offset. -/
def parse_iso_time (cs : List Char) :
    Option (Nat × Nat × Nat × Nat × Option Int) :=
  match parse_2digits cs with
  | none => none
  | some (hh, rest) =>
    if 23 < hh then none
    else
      let finish (mm ss usec : Nat) (tail : List Char) :
          Option (Nat × Nat × Nat × Nat × Option Int) :=
        if 59 < mm ∨ 59 < ss then none
        else
          match tail with
          | [] => some (hh, mm, ss, usec, none)
          | _ =>
            match parse_tz tail with
            | some off => some (hh, mm, ss, usec, some off)
            | none => none
      match rest with
      | ':' :: rest1 =>
        match parse_2digits rest1 with
        | none => none
        | some (mm, rest2) =>
          match rest2 with
          | ':' :: rest3 =>
            match parse_2digits rest3 with
            | none => none
            | some (ss, rest4) =>
              match rest4 with
              | '.' :: rest5 =>
                match parse_frac rest5 with
                | some (usec, rest6) => finish mm ss usec rest6
                | none => none
              | ',' :: rest5 =>
                match parse_frac rest5 with
                | some (usec, rest6) => finish mm ss usec rest6
                | none => none
              | _ => finish mm ss 0 rest4
          | _ => finish mm 0 0 rest2
      | _ => finish 0 0 0 rest

/-- Model of `datetime.fromisoformat` (dashed forms): date, optionally one
arbitrary separator character and a time with optional UTC offset. -/
def datetime_fromisoformat (s : String) : Option PyDateTime :=
  let cs := s.toList
  let datePart := cs.take 10
  let dateBasic := cs.take 8
  let tryWith (dlen : Nat) (d : Option PyDate) : Option PyDateTime :=
    match d with
    | none => none
    | some dv =>
      match cs.drop dlen with
      | [] => some ⟨dv, 0, 0, 0, 0, none⟩
      | _ :: timeCs =>
        match parse_iso_time timeCs with
        | some (hh, mm, ss, usec, off) => some ⟨dv, hh, mm, ss, usec, off⟩
        | none => none
  match date_fromisoformat (String.mk datePart) with
  | some dv => tryWith 10 (some dv)
  | none =>
    match date_fromisoformat (String.mk dateBasic) with
    | some dv => tryWith 8 (some dv)
    | none => none

/-! ## `category_kpi.py` date parsing -/

/-- Model of `_parse_airtable_date` from `category_kpi.py`: datetime/date objects
pass through; strings are sliced to 10 characters and tried as ISO, then
against `%Y-%m-%d`, `%d/%m/%Y`, `%m/%d/%Y`. -/
def parse_airtable_date : AValue → Option PyDate
  | .vDatetime dtv _ => some dtv.date
  | .vDate d _ => some d
  | .vStr s =>
    let text := py_strip s
    if text = "" then none
    else
      let first10 := String.mk (text.toList.take 10)
      let isoAttempt :=
        if 10 ≤ text.toList.length then date_fromisoformat first10 else none
      match isoAttempt with
      | some d => some d
      | none =>
        match py_strptime "%Y-%m-%d" first10 with
        | some dtv => some dtv.date
        | none =>
          match py_strptime "%d/%m/%Y" first10 with
          | some dtv => some dtv.date
          | none =>
            match py_strptime "%m/%d/%Y" first10 with
            | some dtv => some dtv.date
            | none => none
  | _ => none

/-- The twelve fallback patterns of `_parse_airtable_datetime`. -/
def airtable_datetime_patterns : List String :=
  ["%Y-%m-%d %H:%M:%S", "%Y-%m-%d %H:%M", "%Y-%m-%d",
   "%Y/%m/%d %H:%M:%S", "%Y/%m/%d %H:%M", "%Y/%m/%d",
   "%d/%m/%Y %I:%M%p", "%d/%m/%Y %H:%M", "%d/%m/%Y",
   "%m/%d/%Y %I:%M%p", "%m/%d/%Y %H:%M", "%m/%d/%Y"]

/-- First pattern that parses wins (no pattern is retried). -/
def try_patterns (text : String) : List String → Option PyDateTime
  | [] => none
  | f :: rest =>
    match py_strptime f text with
    | some v => some v
    | none => try_patterns text rest

/-- Model of `_parse_airtable_datetime` from `category_kpi.py`: a trailing `Z`
becomes `+00:00`, ISO parsing is tried first, then the fixed patterns. -/
def parse_airtable_datetime : AValue → Option PyDateTime
  | .vDatetime dtv _ => some dtv
  | .vDate d _ => some ⟨d, 0, 0, 0, 0, none⟩
  | .vStr s =>
    let text := py_strip s
    if text = "" then none
    else
      let iso_candidate :=
        match text.toList.reverse with
        | 'Z' :: _ => String.mk (text.toList.dropLast ++ "+00:00".toList)
        | _ => text
      match datetime_fromisoformat iso_candidate with
      | some dtv => some dtv
      | none => try_patterns text airtable_datetime_patterns
  | _ => none

/-- The day after `d` in the proleptic Gregorian calendar. -/
def calendar_next_day (d : PyDate) : PyDate :=
  if d.day < days_in_month d.year d.month then ⟨d.year, d.month, d.day + 1⟩
  else if d.month < 12 then ⟨d.year, d.month + 1, 1⟩
  else ⟨d.year + 1, 1, 1⟩

/-- The day before `d` in the proleptic Gregorian calendar. -/
def calendar_prev_day (d : PyDate) : PyDate :=
  if 1 < d.day then ⟨d.year, d.month, d.day - 1⟩
  else if 1 < d.month then ⟨d.year, d.month - 1, days_in_month d.year (d.month - 1)⟩
  else ⟨d.year - 1, 12, 31⟩

/-- Shift a date by `k` days (structural recursion on `|k|` as fuel so
that concrete evaluation reduces in the kernel). -/
def add_days_fuel : Nat → PyDate → Int → PyDate
  | 0, d, _ => d
  | fuel + 1, d, k =>
    if 0 < k then add_days_fuel fuel (calendar_next_day d) (k - 1)
    else if k < 0 then add_days_fuel fuel (calendar_prev_day d) (k + 1)
    else d

/-- Shift a date by `k` days. -/
def add_days (d : PyDate) (k : Int) : PyDate :=
  add_days_fuel k.natAbs d k

/-- Model of `TZ_OFFSET` from `category_kpi.py`: four hours, in seconds. -/
def tz_offset_seconds : Int := 4 * 3600

/-- Model of `_to_dubai_date` from `category_kpi.py`: parse a datetime, convert
aware values to UTC, add the fixed +4h offset, take the calendar date.
An aware value's clock time minus its UTC offset plus 4h determines how
many days (floor division, as the instant arithmetic does) the calendar
date shifts. -/
def to_dubai_date (value : AValue) : Option PyDate :=
  match parse_airtable_datetime value with
  | none => none
  | some dtv =>
    let offset := dtv.tz_offset_seconds.getD 0
    let total : Int :=
      ((dtv.hour * 3600 + dtv.minute * 60 + dtv.second : Nat) : Int) - offset + tz_offset_seconds
    some (add_days dtv.date (total.fdiv 86400))

/-! ## `category_kpi.py`: order KPI accumulation -/

/-- Module-level constants of `category_kpi.py`. -/
def STATUS_EXPECTED : String := "captured"

/-- Model of `TYPE_NEW_SUB` constant. -/
def TYPE_NEW_SUB : String := "New Sub"

/-- Model of `TYPE_RENEWAL` constant. -/
def TYPE_RENEWAL : String := "Sub Renewal"

/-- Model of `_STATUS_EXPECTED_NORM`. -/
def STATUS_EXPECTED_NORM : String := normalize_expected STATUS_EXPECTED

/-- Model of `_TYPE_NEW_SUB_NORM`. -/
def TYPE_NEW_SUB_NORM : String := normalize_expected TYPE_NEW_SUB

/-- Model of `_TYPE_RENEWAL_NORM`. -/
def TYPE_RENEWAL_NORM : String := normalize_expected TYPE_RENEWAL

/-- Model of `OrderBucket` dataclass: per-window mutable accumulator.  Counters
are naturals (they start at zero and are only incremented); the float
revenue sums are modelled as rationals. -/
structure OrderBucket where
  orders_all : Nat := 0
  revenue_all : Rat := 0
  orders_subs : Nat := 0
  revenue_subs : Rat := 0
  existing : Nat := 0
  multiple_orders : Nat := 0
deriving DecidableEq, Repr

/-- Model of `_accumulate_order` from `category_kpi.py`. -/
def accumulate_order (fields : Fields) (bucket : OrderBucket) : OrderBucket :=
  let bucket := { bucket with orders_all := bucket.orders_all + 1 }
  let amount := to_number (resolve_field fields ["amount", "Amount"])
  let bucket :=
    match amount with
    | some a => { bucket with revenue_all := bucket.revenue_all + a }
    | none => bucket
  let type_normalized := normalized (resolve_field fields ["Type"])
  let is_sub_type := type_normalized = TYPE_NEW_SUB_NORM ∨ type_normalized = TYPE_RENEWAL_NORM
  let bucket :=
    if is_sub_type then
      let b := { bucket with orders_subs := bucket.orders_subs + 1 }
      let b :=
        match amount with
        | some a => { b with revenue_subs := b.revenue_subs + a }
        | none => b
      if type_normalized = TYPE_RENEWAL_NORM then { b with existing := b.existing + 1 } else b
    else bucket
  match resolve_field fields ["Product"] with
  | .vList items _ =>
    let count := (items.filter (fun it => match it with | .vNull => false | _ => true)).length
    if 1 < count then { bucket with multiple_orders := bucket.multiple_orders + 1 } else bucket
  | _ => bucket

/-- The per-record body of the fetch loop in `update_order_kpis`:
status filter, business-date resolution, combined-range filter, then the
`bucket_key` attribution dance (including the both-windows duplication). -/
def order_record_step (previous_window current_window : PyDate × PyDate)
    (buckets : OrderBucket × OrderBucket) (fields : Fields) : OrderBucket × OrderBucket :=
  let status_value := resolve_field fields ["status", "Status"]
  if normalized status_value ≠ STATUS_EXPECTED_NORM then buckets
  else
    let date_value := resolve_field fields
      ["created_date", "createdDate", "Created Date", "Order Date", "date", "Date"]
    match to_dubai_date date_value with
    | none => buckets
    | some order_date =>
      if order_date.lt previous_window.1 ∨ current_window.2.lt order_date then buckets
      else
        let in_prev := previous_window.1.le order_date ∧ order_date.le previous_window.2
        let in_cur := current_window.1.le order_date ∧ order_date.le current_window.2
        let bucket_key : Option String := if in_prev then some "previous" else none
        if in_cur then
          match bucket_key with
          | none => (buckets.1, accumulate_order fields buckets.2)
          | some _ => (accumulate_order fields buckets.1, accumulate_order fields buckets.2)
        else
          match bucket_key with
          | none => buckets
          | some _ => (accumulate_order fields buckets.1, buckets.2)

/-- The bucket-accumulation phase of `update_order_kpis` over the whole
fetched record stream. -/
def order_buckets (previous_window current_window : PyDate × PyDate)
    (records : List Fields) : OrderBucket × OrderBucket :=
  records.foldl (order_record_step previous_window current_window) ({}, {})

/-! ## `category_kpi.py`: category monthly counts -/

/-- Model of `d.strftime("%B")` (the C-locale English month name). -/
def month_name : Nat → String
  | 1 => "January"
  | 2 => "February"
  | 3 => "March"
  | 4 => "April"
  | 5 => "May"
  | 6 => "June"
  | 7 => "July"
  | 8 => "August"
  | 9 => "September"
  | 10 => "October"
  | 11 => "November"
  | 12 => "December"
  | _ => ""

/-- The per-category per-month-label counts of
`update_category_monthly_counts`, as the total lookup function of the
`defaultdict` (absent entries read as zero). -/
abbrev CatCounts := String → String → Nat

/-- Model of `counts[category][label] += 1`. -/
def bump_count (counts : CatCounts) (cat lbl : String) : CatCounts :=
  fun c l => if c = cat ∧ l = lbl then counts c l + 1 else counts c l

/-- The body of the per-category loop in `update_category_monthly_counts`:
increment the previous-month label when the record is in the previous
window and the current-month label when it is in the current window. -/
def category_bump (in_previous in_current : Prop) [Decidable in_previous]
    [Decidable in_current] (previous_label current_label : String)
    (cs : CatCounts) (cat : String) : CatCounts :=
  let cs' := if in_previous then bump_count cs cat previous_label else cs
  if in_current then bump_count cs' cat current_label else cs'

/-- The per-record body of the counting loop in
`update_category_monthly_counts`: resolve and parse the order date
(date-only, no timezone shift), filter to the combined range, extract
categories, and increment each category's in-window labels. -/
def category_record_step (previous_window current_window : PyDate × PyDate)
    (counts : CatCounts) (fields : Fields) : CatCounts :=
  let previous_label := month_name previous_window.1.month
  let current_label := month_name current_window.1.month
  let order_date_value := resolve_field fields ["Order Date", "date", "Date"]
  match parse_airtable_date order_date_value with
  | none => counts
  | some order_date =>
    if order_date.lt previous_window.1 ∨ current_window.2.lt order_date then counts
    else
      let categories :=
        extract_categories (resolve_field fields ["Category (from Product)", "Category"])
      if categories = [] then counts
      else
        let in_previous := previous_window.1.le order_date ∧ order_date.le previous_window.2
        let in_current := current_window.1.le order_date ∧ order_date.le current_window.2
        if ¬in_previous ∧ ¬in_current then counts
        else
          categories.foldl
            (category_bump in_previous in_current previous_label current_label) counts

/-- The counting phase of `update_category_monthly_counts` over the
whole fetched record stream. -/
def category_counts (previous_window current_window : PyDate × PyDate)
    (records : List Fields) : CatCounts :=
  records.foldl (category_record_step previous_window current_window) (fun _ _ => 0)

/-- The sort key of `update_category_monthly_counts`:
`(-totals(cat)[0], -totals(cat)[1], cat.lower())`, where `totals cat`
is the (current, previous) count pair. -/
def cat_key (totals : String → Nat × Nat) (cat : String) : Int × Int × String :=
  (-((totals cat).1 : Int), -((totals cat).2 : Int), py_lower cat)

/-- Lexicographic order on character lists by code point (Python string
`<`). -/
def chars_lt : List Char → List Char → Bool
  | [], [] => false
  | [], _ :: _ => true
  | _ :: _, [] => false
  | a :: as, b :: bs => if a < b then true else if b < a then false else chars_lt as bs

/-- Python string `<` (lexicographic by code point). -/
def str_lt (s t : String) : Bool :=
  chars_lt s.toList t.toList

/-- Non-strict comparison of two categories by their sort keys (Python
tuple comparison). -/
def key_le (totals : String → Nat × Nat) (a b : String) : Bool :=
  let ka := cat_key totals a
  let kb := cat_key totals b
  if ka.1 ≠ kb.1 then decide (ka.1 < kb.1)
  else if ka.2.1 ≠ kb.2.1 then decide (ka.2.1 < kb.2.1)
  else str_lt ka.2.2 kb.2.2 || decide (ka.2.2 = kb.2.2)

/-- Stable insertion: an element is placed after every earlier element
whose key does not exceed its own. -/
def stable_insert (le : String → String → Bool) (a : String) :
    List String → List String
  | [] => [a]
  | b :: bs => if le a b then a :: b :: bs else b :: stable_insert le a bs

/-- Stable sort (insertion sort; any stable sort, in particular
CPython's `sorted`, produces the identical output). -/
def stable_sort (le : String → String → Bool) : List String → List String
  | [] => []
  | x :: xs => stable_insert le x (stable_sort le xs)

/-- Model of `sorted(all_categories, key=...)` from
`update_category_monthly_counts`, applied to a given enumeration order
of the category set. -/
def sorted_categories (totals : String → Nat × Nat) (cats : List String) : List String :=
  stable_sort (key_le totals) cats

/-! ## `airtable_client.py`: reconciliation partition -/

/-- A desired record payload (`{"fields": {...}}`). -/
structure AirPayload where
  fields : Fields

/-- An update operation (`{"id": ..., "fields": {...}}`). -/
structure AirUpdate where
  rid : String
  fields : Fields

/-- Model of `str(payload["fields"].get("id"))`: the reconciliation key of a
desired payload (Python `str(None)` is `"None"` when the key is absent). -/
def record_key (p : AirPayload) : String :=
  pyStr (match field_lookup p.fields "id" with | some v => v | none => .vNull)

/-- The pure partition loop of `upsert_by_id` (`airtable_client.py`
lines 70-83): each desired payload becomes an update carrying the
existing Airtable id when `existing.get(str(identifier))` is truthy, and
a create otherwise. -/
def upsert_partition (existing : List (String × String)) (records : List AirPayload) :
    List AirUpdate × List AirPayload :=
  records.foldl (fun acc payload =>
    match existing.lookup (record_key payload) with
    | some airtable_id =>
      if airtable_id ≠ "" then (acc.1 ++ [⟨airtable_id, payload.fields⟩], acc.2)
      else (acc.1, acc.2 ++ [payload])
    | none => (acc.1, acc.2 ++ [payload])) ([], [])

/-! ## `kpi.py`: CAC computation -/

/-- Python's `round` on an exact value: round half to even.  The float
`spend / orders` is modelled as the exact rational quotient. -/
def py_round_half_even (q : Rat) : Int :=
  let f : Int := q.floor
  let r : Rat := q - (f : Rat)
  if r < 1 / 2 then f
  else if 1 / 2 < r then f + 1
  else if f % 2 = 0 then f else f + 1

/-- Decimal digits, least significant first, with explicit fuel
(structural recursion so that concrete evaluation reduces in the
kernel); never empty while fuel remains. -/
def nat_rev_digits_fuel : Nat → Nat → List Nat
  | _, 0 => []
  | n, fuel + 1 => if n < 10 then [n] else n % 10 :: nat_rev_digits_fuel (n / 10) fuel

/-- Decimal digits of `n`, least significant first; never empty. -/
def nat_rev_digits (n : Nat) : List Nat :=
  nat_rev_digits_fuel n (n + 1)

/-- Insert a thousands separator after every third digit
(least-significant-first digit list). -/
def comma_rev : List Nat → Nat → List Char
  | [], _ => []
  | d :: ds, k =>
    let c := Char.ofNat (48 + d)
    if k % 3 = 2 ∧ ds ≠ [] then c :: ',' :: comma_rev ds (k + 1)
    else c :: comma_rev ds (k + 1)

/-- Python `f"{n:,d}"`: decimal digits grouped in threes with commas, a
leading minus sign for negatives. -/
def format_int_commas (n : Int) : String :=
  let body := (comma_rev (nat_rev_digits n.natAbs) 0).reverse
  String.mk (if n < 0 then '-' :: body else body)

/-- Model of `format_with_commas` from `kpi.py`: `f"{int(round(value)):,d}"`. -/
def format_with_commas (value : Rat) : String :=
  format_int_commas (py_round_half_even value)

/-- Model of `parse_numeric` from `kpi.py`: numbers pass through, falsy values
become zero, anything else must parse as a float (else CPython raises,
modelled as `none`). -/
def parse_numeric : AValue → Option Rat
  | .vInt n => some (n : Rat)
  | .vFloat q _ => some q
  | v => if py_truthy v then py_float_of_string (py_remove_commas (pyStr v)) else some 0

/-- Model of `SpendRow` dataclass from `sources.py`. -/
structure SpendRow where
  date : String
  account_id : String
  currency : String
  amount : Int
  platform : String

/-- Model of `sum_spend_for_month` from `kpi.py`.  Each row's date string is
parsed with `strptime("%Y-%m-%d")` before any filtering, so one
malformed row aborts the whole sum (modelled as `none`); `dt.date.today()`
is passed explicitly as `today`. -/
def sum_spend_for_month (rows : List SpendRow) (year month day_limit : Nat)
    (today : PyDate) : Option Int :=
  rows.foldl (fun acc row =>
    match acc with
    | none => none
    | some total =>
      match py_strptime "%Y-%m-%d" row.date with
      | none => none
      | some dtv =>
        let date := dtv.date
        if date.year = year ∧ date.month = month ∧ date.day ≤ day_limit ∧ date.le today then
          some (total + row.amount)
        else some total) (some 0)

/-- The inner `cac` helper shared by `update_monthly_cac` and
`update_daily_cac`: empty string for non-positive order counts,
otherwise the comma-formatted rounded quotient. -/
def cac_value (spend : Int) (orders : Rat) : String :=
  if orders ≤ 0 then "" else format_with_commas ((spend : Rat) / orders)

/-- A remote KPI record (`{id, fields}`) as returned by
`get_single_record`. -/
structure AirRecord where
  rid : String
  fields : Fields

/-- Model of `date.isoformat()`: zero-padded `YYYY-MM-DD`. -/
def date_isoformat (d : PyDate) : String :=
  let pad (width n : Nat) : String :=
    let s := toString n
    String.mk (List.replicate (width - s.length) '0') ++ s
  pad 4 d.year ++ "-" ++ pad 2 d.month ++ "-" ++ pad 2 d.day

/-- A single-record update issued through `update_single_record`. -/
structure CacWrite where
  rid : String
  fields : List (String × String)

/-- Model of `update_monthly_cac` from `kpi.py`, with the remote store modelled
by the `get_single` lookup (`none` models `AirtableError`) and the
issued writes returned; `none` overall models an uncaught exception
(which also writes nothing). -/
def update_monthly_cac (get_single : String → Option AirRecord)
    (spend_rows : List SpendRow) (previous_window current_window : PyDate × PyDate)
    (today : PyDate) : Option (List CacWrite) :=
  match sum_spend_for_month spend_rows previous_window.1.year previous_window.1.month
      previous_window.2.day today with
  | none => none
  | some prev_sum =>
    match sum_spend_for_month spend_rows current_window.1.year current_window.1.month
        current_window.2.day today with
    | none => none
    | some cur_sum =>
      if prev_sum = 0 ∧ cur_sum = 0 then some []
      else
        match get_single "New orders" with
        | none => none
        | some new_orders_record =>
          let prev_label := month_name previous_window.1.month
          let cur_label := month_name current_window.1.month
          let getf (l : String) : AValue :=
            match field_lookup new_orders_record.fields l with
            | some v => v
            | none => .vNull
          match parse_numeric (getf prev_label), parse_numeric (getf cur_label) with
          | some prev_orders, some cur_orders =>
            let cac_prev := cac_value prev_sum prev_orders
            let cac_cur := cac_value cur_sum cur_orders
            match get_single "CAC Converted (aed)" with
            | none => none
            | some cac_record =>
              some [⟨cac_record.rid, [(prev_label, cac_prev), (cur_label, cac_cur)]⟩]
          | _, _ => none

/-- Model of `update_daily_cac` from `kpi.py`, same store model. -/
def update_daily_cac (get_single : String → Option AirRecord)
    (spend_by_date : List (String × Int)) (today previous_date : PyDate) :
    Option (List CacWrite) :=
  let spend_today := (spend_by_date.lookup (date_isoformat today)).getD 0
  let spend_prev := (spend_by_date.lookup (date_isoformat previous_date)).getD 0
  if spend_today = 0 ∧ spend_prev = 0 then some []
  else
    match get_single "New orders" with
    | none => none
    | some new_orders_record =>
      let today_label := month_name today.month
      let prev_label := month_name previous_date.month
      let getf (l : String) : AValue :=
        match field_lookup new_orders_record.fields l with
        | some v => v
        | none => .vNull
      match parse_numeric (getf today_label), parse_numeric (getf prev_label) with
      | some today_orders, some previous_orders =>
        let cac_today := cac_value spend_today today_orders
        let cac_prev := cac_value spend_prev previous_orders
        match get_single "CAC Converted (aed)" with
        | none => none
        | some cac_record =>
          some [⟨cac_record.rid, [(today_label, cac_today), (prev_label, cac_prev)]⟩]
      | _, _ => none

/-! ## Specification-side predicates -/

def isFirstOccurrence (y m w f : Nat) : Prop :=
  1 ≤ f ∧ py_weekday ⟨y, m, f⟩ = w ∧ ∀ d, d < f → 1 ≤ d → py_weekday ⟨y, m, d⟩ ≠ w

def isNthOccurrence (y m w n d : Nat) : Prop :=
  ∃ f, isFirstOccurrence y m w f ∧ 1 ≤ n ∧ d = f + 7 * (n - 1) ∧ d ≤ days_in_month y m

def isLastOccurrence (y m w d : Nat) : Prop :=
  1 ≤ d ∧ d ≤ days_in_month y m ∧ py_weekday ⟨y, m, d⟩ = w ∧
    ∀ e, e ≤ days_in_month y m → d < e → py_weekday ⟨y, m, e⟩ ≠ w

instance (y m w f : Nat) : Decidable (isFirstOccurrence y m w f) := by
  unfold isFirstOccurrence
  exact inferInstance

instance (y m w d : Nat) : Decidable (isLastOccurrence y m w d) := by
  unfold isLastOccurrence
  exact inferInstance

def bucket_inv (b : OrderBucket) : Prop :=
  b.existing ≤ b.orders_subs ∧ b.orders_subs ≤ b.orders_all ∧ b.multiple_orders ≤ b.orders_all

/-! ## Theorems -/
theorem py_weekday_day (y m d : Nat) (hd : 1 ≤ d) :
    py_weekday ⟨y, m, d⟩ = (py_weekday ⟨y, m, 1⟩ + (d - 1)) % 7 := by
  unfold py_weekday to_ordinal
  dsimp only
  omega

theorem py_weekday_lt (d : PyDate) : py_weekday d < 7 := by
  unfold py_weekday
  omega

theorem first_weekday_ge_one (y m w : Nat) : 1 ≤ first_weekday_of_month y m w := by
  unfold first_weekday_of_month
  have h1 : 0 ≤ ((w : Int) - (py_weekday ⟨y, m, 1⟩ : Int)) % 7 := Int.emod_nonneg _ (by omega)
  omega

theorem first_weekday_le_seven (y m w : Nat) : first_weekday_of_month y m w ≤ 7 := by
  unfold first_weekday_of_month
  have h1 : ((w : Int) - (py_weekday ⟨y, m, 1⟩ : Int)) % 7 < 7 := Int.emod_lt_of_pos _ (by omega)
  omega

theorem first_weekday_hits (y m w : Nat) (hw : w < 7) :
    py_weekday ⟨y, m, (first_weekday_of_month y m w).toNat⟩ = w := by
  have h1 := first_weekday_ge_one y m w
  rw [py_weekday_day _ _ _ (by omega)]
  unfold first_weekday_of_month at *
  have h2 : 0 ≤ ((w : Int) - (py_weekday ⟨y, m, 1⟩ : Int)) % 7 := Int.emod_nonneg _ (by omega)
  have h3 : ((w : Int) - (py_weekday ⟨y, m, 1⟩ : Int)) % 7 < 7 := Int.emod_lt_of_pos _ (by omega)
  have h4 := py_weekday_lt (⟨y, m, 1⟩ : PyDate)
  omega

theorem first_weekday_minimal (y m w : Nat) (d : Nat) (hd : 1 ≤ d)
    (hlt : (d : Int) < first_weekday_of_month y m w) :
    py_weekday ⟨y, m, d⟩ ≠ w := by
  rw [py_weekday_day _ _ _ hd]
  unfold first_weekday_of_month at hlt
  have h2 : 0 ≤ ((w : Int) - (py_weekday ⟨y, m, 1⟩ : Int)) % 7 := Int.emod_nonneg _ (by omega)
  have h3 : ((w : Int) - (py_weekday ⟨y, m, 1⟩ : Int)) % 7 < 7 := Int.emod_lt_of_pos _ (by omega)
  have h4 := py_weekday_lt (⟨y, m, 1⟩ : PyDate)
  omega

theorem days_in_month_bounds (y m : Nat) (h1 : 1 ≤ m) (h2 : m ≤ 12) :
    28 ≤ days_in_month y m ∧ days_in_month y m ≤ 31 := by
  interval_cases m <;> simp [days_in_month] <;> split <;> omega

theorem last_weekday_le (y m w : Nat) :
    last_weekday_of_month y m w ≤ (days_in_month y m : Int) := by
  unfold last_weekday_of_month
  have h2 : 0 ≤ ((py_weekday ⟨y, m, days_in_month y m⟩ : Int) - (w : Int)) % 7 :=
    Int.emod_nonneg _ (by omega)
  omega

theorem last_weekday_ge (y m w : Nat) :
    (days_in_month y m : Int) - 6 ≤ last_weekday_of_month y m w := by
  unfold last_weekday_of_month
  have h3 : ((py_weekday ⟨y, m, days_in_month y m⟩ : Int) - (w : Int)) % 7 < 7 :=
    Int.emod_lt_of_pos _ (by omega)
  omega

theorem last_weekday_hits (y m w : Nat) (hw : w < 7) (h28 : 28 ≤ days_in_month y m) :
    py_weekday ⟨y, m, (last_weekday_of_month y m w).toNat⟩ = w := by
  have h1 := last_weekday_ge y m w
  have h2 : 0 ≤ ((py_weekday ⟨y, m, days_in_month y m⟩ : Int) - (w : Int)) % 7 :=
    Int.emod_nonneg _ (by omega)
  have h3 : ((py_weekday ⟨y, m, days_in_month y m⟩ : Int) - (w : Int)) % 7 < 7 :=
    Int.emod_lt_of_pos _ (by omega)
  rw [py_weekday_day _ _ _ (by unfold last_weekday_of_month at *; omega)]
  have h4 := py_weekday_lt (⟨y, m, 1⟩ : PyDate)
  have h5 := py_weekday_day y m (days_in_month y m) (by omega)
  unfold last_weekday_of_month at *
  omega

theorem last_weekday_maximal (y m w : Nat) (h28 : 28 ≤ days_in_month y m)
    (e : Nat) (he : e ≤ days_in_month y m) (hgt : last_weekday_of_month y m w < (e : Int)) :
    py_weekday ⟨y, m, e⟩ ≠ w := by
  have h1 := last_weekday_ge y m w
  have h2 : 0 ≤ ((py_weekday ⟨y, m, days_in_month y m⟩ : Int) - (w : Int)) % 7 :=
    Int.emod_nonneg _ (by omega)
  have h3 : ((py_weekday ⟨y, m, days_in_month y m⟩ : Int) - (w : Int)) % 7 < 7 :=
    Int.emod_lt_of_pos _ (by omega)
  rw [py_weekday_day _ _ _ (by unfold last_weekday_of_month at *; omega)]
  have h4 := py_weekday_lt (⟨y, m, 1⟩ : PyDate)
  have h5 := py_weekday_day y m (days_in_month y m) (by omega)
  unfold last_weekday_of_month at *
  omega

theorem first_weekday_isFirst (y m w : Nat) (hw : w < 7) :
    isFirstOccurrence y m w (first_weekday_of_month y m w).toNat := by
  have hge := first_weekday_ge_one y m w
  refine ⟨by omega, first_weekday_hits y m w hw, fun d hd h1 => ?_⟩
  exact first_weekday_minimal y m w d h1 (by omega)

theorem isFirst_unique (y m w f1 f2 : Nat)
    (h1 : isFirstOccurrence y m w f1) (h2 : isFirstOccurrence y m w f2) : f1 = f2 := by
  by_contra hne
  rcases Nat.lt_or_ge f1 f2 with h | h
  · exact h2.2.2 f1 h h1.1 h1.2.1
  · exact h1.2.2 f2 (by omega) h2.1 h2.2.1

theorem last_weekday_isLast (y m w : Nat) (hw : w < 7) (hm1 : 1 ≤ m) (hm2 : m ≤ 12) :
    isLastOccurrence y m w (last_weekday_of_month y m w).toNat := by
  have h28 := (days_in_month_bounds y m hm1 hm2).1
  have hge := last_weekday_ge y m w
  have hle := last_weekday_le y m w
  refine ⟨by omega, by omega, last_weekday_hits y m w hw h28, fun e he hgt => ?_⟩
  exact last_weekday_maximal y m w h28 e he (by omega)

theorem nth_weekday_bounds (y m w : Nat) (nI : Int) (hm1 : 1 ≤ m) (hm2 : m ≤ 12)
    (hn : 1 ≤ nI) :
    1 ≤ nth_weekday_of_month y m w nI ∧
      nth_weekday_of_month y m w nI ≤ (days_in_month y m : Int) := by
  have h28 := (days_in_month_bounds y m hm1 hm2).1
  have hge := first_weekday_ge_one y m w
  have hgeL := last_weekday_ge y m w
  have hleL := last_weekday_le y m w
  unfold nth_weekday_of_month
  split
  · constructor
    · nlinarith
    · assumption
  · omega

theorem nth_weekday_correct (y m w n : Nat) (hw : w < 7) (hm1 : 1 ≤ m) (hm2 : m ≤ 12)
    (hn : 1 ≤ n) :
    (∀ d, isNthOccurrence y m w n d → (nth_weekday_of_month y m w (n : Int)).toNat = d) ∧
    ((∀ d, ¬ isNthOccurrence y m w n d) →
      isLastOccurrence y m w (nth_weekday_of_month y m w (n : Int)).toNat) := by
  have h28 := (days_in_month_bounds y m hm1 hm2).1
  have hge := first_weekday_ge_one y m w
  have hfirst := first_weekday_isFirst y m w hw
  constructor
  · intro d hd
    obtain ⟨f, hf, hn1, hday, hdle⟩ := hd
    have hff : f = (first_weekday_of_month y m w).toNat := isFirst_unique y m w f _ hf hfirst
    unfold nth_weekday_of_month
    split
    · omega
    · omega
  · intro hnone
    unfold nth_weekday_of_month
    split
    · exfalso
      apply hnone (first_weekday_of_month y m w + ((n : Int) - 1) * 7).toNat
      refine ⟨(first_weekday_of_month y m w).toNat, hfirst, hn, by omega, by omega⟩
    · exact last_weekday_isLast y m w hw hm1 hm2

theorem prev_month_range (y m : Nat) (hm1 : 1 ≤ m) (hm2 : m ≤ 12) :
    1 ≤ (prev_year_month y m).2 ∧ (prev_year_month y m).2 ≤ 12 := by
  unfold prev_year_month
  split <;> omega

theorem daily_windows_nth_eq (now : PyDateTime) (n : Nat)
    (hn : isNthOccurrence now.date.year now.date.month (py_weekday now.date) n now.date.day) :
    daily_windows now =
      (now.date,
        ⟨(prev_year_month now.date.year now.date.month).1,
         (prev_year_month now.date.year now.date.month).2,
         (nth_weekday_of_month (prev_year_month now.date.year now.date.month).1
            (prev_year_month now.date.year now.date.month).2 (py_weekday now.date) (n : Int)).toNat⟩) := by
  obtain ⟨f, hf, hn1, hday, hdle⟩ := hn
  have hw : py_weekday now.date < 7 := py_weekday_lt _
  have hfirst := first_weekday_isFirst now.date.year now.date.month (py_weekday now.date) hw
  have hff : f = (first_weekday_of_month now.date.year now.date.month (py_weekday now.date)).toNat :=
    isFirst_unique _ _ _ f _ hf hfirst
  have hge := first_weekday_ge_one now.date.year now.date.month (py_weekday now.date)
  simp only [daily_windows]
  have hdiff : (now.date.day : Int) -
      first_weekday_of_month now.date.year now.date.month (py_weekday now.date)
      = 7 * ((n : Int) - 1) := by omega
  rw [hdiff, Int.mul_fdiv_cancel_left _ (by norm_num)]
  have hmax : max ((n : Int) - 1) 0 = (n : Int) - 1 := by omega
  rw [hmax]
  have hnth : 1 + ((n : Int) - 1) = (n : Int) := by omega
  rw [hnth]

/-- C7: for every datetime whose calendar day is the nth occurrence of its
weekday in its month, `daily_windows` returns, as the comparison date, the
nth occurrence of that weekday in the previous month when it exists, and
otherwise the last occurrence of that weekday in the previous month. -/
theorem claim_c7_daily_comparison (now : PyDateTime) (n : Nat)
    (hv : now.date.Valid)
    (hn : isNthOccurrence now.date.year now.date.month (py_weekday now.date) n now.date.day) :
    (daily_windows now).1 = now.date ∧
    (daily_windows now).2.year = (prev_year_month now.date.year now.date.month).1 ∧
    (daily_windows now).2.month = (prev_year_month now.date.year now.date.month).2 ∧
    (∀ d, isNthOccurrence (prev_year_month now.date.year now.date.month).1
        (prev_year_month now.date.year now.date.month).2 (py_weekday now.date) n d →
      (daily_windows now).2.day = d) ∧
    ((∀ d, ¬ isNthOccurrence (prev_year_month now.date.year now.date.month).1
        (prev_year_month now.date.year now.date.month).2 (py_weekday now.date) n d) →
      isLastOccurrence (prev_year_month now.date.year now.date.month).1
        (prev_year_month now.date.year now.date.month).2 (py_weekday now.date)
        (daily_windows now).2.day) := by
  have hw : py_weekday now.date < 7 := py_weekday_lt _
  have hm := prev_month_range now.date.year now.date.month hv.2.1 hv.2.2.1
  have hcorr := nth_weekday_correct (prev_year_month now.date.year now.date.month).1
    (prev_year_month now.date.year now.date.month).2 (py_weekday now.date) n hw hm.1 hm.2
    (by obtain ⟨f, hf, hn1, _, _⟩ := hn; exact hn1)
  rw [daily_windows_nth_eq now n hn]
  exact ⟨rfl, rfl, rfl, fun d hd => hcorr.1 d hd, fun hnone => hcorr.2 hnone⟩

/-- Witness for C7: 2025-06-30 is the 5th Monday of a 5-Monday month and
May 2025 has only 4 Mondays, so the comparison date is the last Monday of
May, 2025-05-26. -/
theorem claim_c7_witness :
    (daily_windows ⟨⟨2025, 6, 30⟩, 10, 0, 0, 0, none⟩).2 = (⟨2025, 5, 26⟩ : PyDate) ∧
    isLastOccurrence (prev_year_month 2025 6).1 (prev_year_month 2025 6).2
      (py_weekday (⟨2025, 6, 30⟩ : PyDate)) 26 := by
  have hn : isNthOccurrence 2025 6 (py_weekday (⟨2025, 6, 30⟩ : PyDate)) 5 30 :=
    ⟨2, by decide, by decide, by decide, by decide⟩
  have hnone : ∀ d, ¬ isNthOccurrence (prev_year_month 2025 6).1 (prev_year_month 2025 6).2
      (py_weekday (⟨2025, 6, 30⟩ : PyDate)) 5 d := by
    intro d hd
    obtain ⟨f, hf, _, hday, hdle⟩ := hd
    have hf5 : f = 5 := isFirst_unique _ _ _ f 5 hf (by decide)
    have h31 : days_in_month (prev_year_month 2025 6).1 (prev_year_month 2025 6).2 = 31 := rfl
    omega
  have h := claim_c7_daily_comparison ⟨⟨2025, 6, 30⟩, 10, 0, 0, 0, none⟩ 5
    (by decide) hn
  have hday := h.2.2.2.2 hnone
  have heq : (daily_windows ⟨⟨2025, 6, 30⟩, 10, 0, 0, 0, none⟩).2.day = 26 := by decide
  exact ⟨by decide, heq ▸ hday⟩

/-- C10: `required_start_date` always equals the first day of the month
before `now`'s month, because the daily comparison date always lies
within that previous month, so the minimum is the month start. -/
theorem claim_c10_required_start (now : PyDateTime) (hv : now.date.Valid) :
    required_start_date now =
      ⟨(prev_year_month now.date.year now.date.month).1,
       (prev_year_month now.date.year now.date.month).2, 1⟩ ∧
    (daily_windows now).2.year = (prev_year_month now.date.year now.date.month).1 ∧
    (daily_windows now).2.month = (prev_year_month now.date.year now.date.month).2 ∧
    1 ≤ (daily_windows now).2.day ∧
    (daily_windows now).2.day ≤
      days_in_month (prev_year_month now.date.year now.date.month).1
        (prev_year_month now.date.year now.date.month).2 := by
  have hm := prev_month_range now.date.year now.date.month hv.2.1 hv.2.2.1
  have hbounds := nth_weekday_bounds (prev_year_month now.date.year now.date.month).1
    (prev_year_month now.date.year now.date.month).2 (py_weekday now.date)
    (1 + max (((now.date.day : Int) -
      first_weekday_of_month now.date.year now.date.month (py_weekday now.date)).fdiv 7) 0)
    hm.1 hm.2 (by omega)
  have hdw : daily_windows now =
      (now.date,
        ⟨(prev_year_month now.date.year now.date.month).1,
         (prev_year_month now.date.year now.date.month).2,
         (nth_weekday_of_month (prev_year_month now.date.year now.date.month).1
            (prev_year_month now.date.year now.date.month).2 (py_weekday now.date)
            (1 + max (((now.date.day : Int) -
              first_weekday_of_month now.date.year now.date.month (py_weekday now.date)).fdiv 7) 0)).toNat⟩) := by
    simp only [daily_windows]
  refine ⟨?_, by rw [hdw], by rw [hdw], by rw [hdw]; dsimp only; omega, by rw [hdw]; dsimp only; omega⟩
  unfold required_start_date monthly_windows py_min_date
  rw [hdw]
  dsimp only
  split
  · rfl
  · rename_i hsplit
    unfold PyDate.lt at hsplit
    dsimp only at hsplit
    have h1 : (nth_weekday_of_month (prev_year_month now.date.year now.date.month).1
        (prev_year_month now.date.year now.date.month).2 (py_weekday now.date)
        (1 + max (((now.date.day : Int) -
          first_weekday_of_month now.date.year now.date.month (py_weekday now.date)).fdiv 7) 0)).toNat = 1 := by
      omega
    rw [h1]

/-- Witness for C10 at a concrete instant: the required fetch start for
2025-10-12 is 2025-09-01. -/
theorem claim_c10_witness :
    required_start_date ⟨⟨2025, 10, 12⟩, 9, 30, 0, 0, none⟩ = (⟨2025, 9, 1⟩ : PyDate) := by
  have h := claim_c10_required_start ⟨⟨2025, 10, 12⟩, 9, 30, 0, 0, none⟩ (by decide)
  exact h.1.trans (by decide)


theorem accumulate_order_inv (fields : Fields) (b : OrderBucket) (h : bucket_inv b) :
    bucket_inv (accumulate_order fields b) := by
  unfold bucket_inv at *
  unfold accumulate_order
  dsimp only
  repeat' split
  all_goals dsimp only
  all_goals omega

theorem foldl_accumulate_inv (records : List Fields) (b : OrderBucket) (h : bucket_inv b) :
    bucket_inv (records.foldl (fun acc f => accumulate_order f acc) b) := by
  induction records generalizing b with
  | nil => exact h
  | cons f rest ih => exact ih _ (accumulate_order_inv f b h)

/-- C9: starting from the all-zero `OrderBucket`, after any finite
sequence of `_accumulate_order` applications the bucket satisfies
`existing ≤ orders_subs ≤ orders_all` and `multiple_orders ≤ orders_all`. -/
theorem claim_c9_bucket_invariant (records : List Fields) :
    bucket_inv (records.foldl (fun acc f => accumulate_order f acc) {}) :=
  foldl_accumulate_inv records {} (by constructor <;> simp)

theorem nat_rev_digits_ne_nil (n : Nat) : nat_rev_digits n ≠ [] := by
  unfold nat_rev_digits nat_rev_digits_fuel
  split <;> simp

theorem comma_rev_ne_nil (ds : List Nat) (k : Nat) (h : ds ≠ []) : comma_rev ds k ≠ [] := by
  cases ds with
  | nil => exact absurd rfl h
  | cons d rest =>
    unfold comma_rev
    split
    · simp
    · simp

theorem format_int_commas_ne_empty (n : Int) : format_int_commas n ≠ "" := by
  unfold format_int_commas
  have h1 := nat_rev_digits_ne_nil n.natAbs
  have h2 := comma_rev_ne_nil (nat_rev_digits n.natAbs) 0 h1
  intro hcontra
  have : (if n < 0 then '-' :: (comma_rev (nat_rev_digits n.natAbs) 0).reverse
      else (comma_rev (nat_rev_digits n.natAbs) 0).reverse) = [] := by
    have := congrArg String.data hcontra
    simpa using this
  split at this
  · simp at this
  · simp at this
    exact h2 this

/-- C8: the CAC value is the empty string when the order count is at most
zero, and otherwise `round(spend / orders)` rendered with thousands
separators (a never-empty digit string); in particular zero orders never
produce the string `"0"`. -/
theorem claim_c8_cac_rendering (spend : Int) (orders : Rat) :
    (orders ≤ 0 → cac_value spend orders = "") ∧
    (0 < orders →
      cac_value spend orders = format_int_commas (py_round_half_even ((spend : Rat) / orders)) ∧
      cac_value spend orders ≠ "") ∧
    cac_value spend 0 ≠ "0" := by
  refine ⟨fun h => ?_, fun h => ⟨?_, ?_⟩, ?_⟩
  · unfold cac_value
    rw [if_pos h]
  · unfold cac_value format_with_commas
    rw [if_neg (not_le.mpr h)]
  · unfold cac_value format_with_commas
    rw [if_neg (not_le.mpr h)]
    exact format_int_commas_ne_empty _
  · unfold cac_value
    rw [if_pos le_rfl]
    intro hcontra
    exact absurd (congrArg String.data hcontra) (by simp)

/-- Witness for C8 at concrete spend and order counts. -/
theorem claim_c8_witness :
    cac_value 1000 4 = "250" ∧ cac_value 1000 (-2) = "" ∧ cac_value 1000 0 ≠ "0" := by
  have h4 := claim_c8_cac_rendering 1000 4
  refine ⟨?_, (claim_c8_cac_rendering 1000 (-2)).1 (by norm_num),
    (claim_c8_cac_rendering 1000 0).2.2⟩
  rw [(h4.2.1 (by norm_num)).1]
  have hq : ((1000 : Int) : Rat) / 4 = (250 : Rat) := by norm_num
  rw [hq]
  have hr : py_round_half_even (250 : Rat) = 250 := by
    unfold py_round_half_even
    have hf : (250 : Rat).floor = (250 : Int) := by
      have hbr : (250 : Rat).floor = ⌊(250 : Rat)⌋ := rfl
      rw [hbr]
      norm_num
    rw [hf]
    norm_num
  rw [hr]
  decide

/-- C1: when the summed spend for both monthly windows is zero (and both
daily spend lookups are zero), `update_monthly_cac` and `update_daily_cac`
return without issuing any remote write. -/
theorem claim_c1_zero_spend_no_write
    (get_single : String → Option AirRecord) (spend_rows : List SpendRow)
    (previous_window current_window : PyDate × PyDate) (today : PyDate)
    (spend_by_date : List (String × Int)) (tday pday : PyDate)
    (h1 : sum_spend_for_month spend_rows previous_window.1.year previous_window.1.month
      previous_window.2.day today = some 0)
    (h2 : sum_spend_for_month spend_rows current_window.1.year current_window.1.month
      current_window.2.day today = some 0)
    (h3 : (spend_by_date.lookup (date_isoformat tday)).getD 0 = 0)
    (h4 : (spend_by_date.lookup (date_isoformat pday)).getD 0 = 0) :
    update_monthly_cac get_single spend_rows previous_window current_window today = some [] ∧
    update_daily_cac get_single spend_by_date tday pday = some [] := by
  constructor
  · unfold update_monthly_cac
    rw [h1, h2]
    simp
  · unfold update_daily_cac
    rw [h3, h4]
    simp

/-- Witness for C1: with no spend rows at all, both updaters issue zero
writes. -/
theorem claim_c1_witness :
    update_monthly_cac (fun _ => none) [] ((⟨2024, 1, 1⟩, ⟨2024, 1, 31⟩))
      ((⟨2024, 2, 1⟩, ⟨2024, 2, 29⟩)) ⟨2024, 2, 15⟩ = some [] ∧
    update_daily_cac (fun _ => none) [] ⟨2024, 2, 15⟩ ⟨2024, 1, 15⟩ = some [] :=
  claim_c1_zero_spend_no_write (fun _ => none) [] _ _ _ [] _ _ rfl rfl rfl rfl

/-- C5 counterexample: on `"2024-01-15garbage"` the date-only parse
succeeds (first 10 characters) while datetime parsing fails, yet
`_to_dubai_date` returns `none` rather than the date-only result: the
fallback described by the spec does not exist in the code. -/
theorem claim_c5_counterexample :
    parse_airtable_date (.vStr "2024-01-15garbage") = some ⟨2024, 1, 15⟩ ∧
    parse_airtable_datetime (.vStr "2024-01-15garbage") = none ∧
    to_dubai_date (.vStr "2024-01-15garbage") = none := by
  refine ⟨by decide, by decide, by decide⟩

/-- C5 (amended): whenever datetime parsing fails, `_to_dubai_date`
returns absent; it never falls back to the date-only parser. -/
theorem claim_c5_no_fallback (value : AValue)
    (h : parse_airtable_datetime value = none) : to_dubai_date value = none := by
  unfold to_dubai_date
  rw [h]

/-- Witness for C5 at a concrete unparseable string. -/
theorem claim_c5_witness :
    parse_airtable_datetime (.vStr "not a date") = none ∧
    to_dubai_date (.vStr "not a date") = none := by
  have h : parse_airtable_datetime (.vStr "not a date") = none := by decide
  exact ⟨h, claim_c5_no_fallback _ h⟩

theorem lookup_mem {k v : String} : ∀ {l : List (String × String)},
    l.lookup k = some v → (k, v) ∈ l := by
  intro l
  induction l with
  | nil => intro h; simp [List.lookup] at h
  | cons p ps ih =>
    intro h
    rcases p with ⟨pk, pv⟩
    simp only [List.lookup] at h
    cases hbeq : (k == pk) with
    | true =>
      rw [hbeq] at h
      simp only [Option.some.injEq] at h
      subst h
      have hkeq : k = pk := by simpa using hbeq
      subst hkeq
      exact List.mem_cons_self _ _
    | false =>
      rw [hbeq] at h
      exact List.mem_cons_of_mem _ (ih h)

theorem upsert_partition_aux (existing : List (String × String))
    (hids : ∀ pr ∈ existing, pr.2 ≠ "") (records : List AirPayload)
    (u : List AirUpdate) (c : List AirPayload) :
    records.foldl (fun acc payload =>
      match existing.lookup (record_key payload) with
      | some airtable_id =>
        if airtable_id ≠ "" then (acc.1 ++ [⟨airtable_id, payload.fields⟩], acc.2)
        else (acc.1, acc.2 ++ [payload])
      | none => (acc.1, acc.2 ++ [payload])) (u, c)
    = (u ++ records.filterMap (fun p => (existing.lookup (record_key p)).map
          (fun aid => AirUpdate.mk aid p.fields)),
       c ++ records.filter (fun p => (existing.lookup (record_key p)).isNone)) := by
  induction records generalizing u c with
  | nil => simp
  | cons p ps ih =>
    simp only [List.foldl_cons, List.filterMap_cons, List.filter_cons]
    cases hlook : existing.lookup (record_key p) with
    | none =>
      simp only [Option.map_none, Option.isNone_none]
      rw [ih]
      simp
    | some aid =>
      have haid : aid ≠ "" := by
        have hmem : (record_key p, aid) ∈ existing := lookup_mem hlook
        exact hids _ hmem
      simp only [if_pos haid, Option.map_some, Option.isNone_some]
      rw [ih]
      simp

/-- C6 (amended): provided every existing id is a non-empty string, the
reconciliation partition emits exactly one update (carrying the existing
id) per desired entry whose key is in the existing map and exactly one
create per entry whose key is not, both lists in the caller's order. -/
theorem claim_c6_partition (existing : List (String × String)) (records : List AirPayload)
    (hids : ∀ pr ∈ existing, pr.2 ≠ "") :
    upsert_partition existing records
      = (records.filterMap (fun p => (existing.lookup (record_key p)).map
            (fun aid => AirUpdate.mk aid p.fields)),
         records.filter (fun p => (existing.lookup (record_key p)).isNone)) := by
  unfold upsert_partition
  have h := upsert_partition_aux existing hids records [] []
  simpa using h

/-- Witness for C6: one matched key becomes the only update, one
unmatched key becomes the only create. -/
theorem claim_c6_witness :
    upsert_partition [("k1", "rec1")] [⟨[("id", .vStr "k1")]⟩, ⟨[("id", .vStr "k2")]⟩]
      = ([⟨"rec1", [("id", .vStr "k1")]⟩], [⟨[("id", .vStr "k2")]⟩]) := by
  have h := claim_c6_partition [("k1", "rec1")] [⟨[("id", .vStr "k1")]⟩, ⟨[("id", .vStr "k2")]⟩]
    (by intro pr hpr; simp at hpr; rw [hpr]; decide)
  rw [h]
  rfl

/-- C6 counterexample: a key present in both the desired set and the
existing map, but mapped to the empty-string id, produces a create and no
update, because the code tests the id for truthiness. -/
theorem claim_c6_counterexample :
    (([("k", "")] : List (String × String)).lookup "k" = some "") ∧
    upsert_partition [("k", "")] [⟨[("id", .vStr "k")]⟩] = ([], [⟨[("id", .vStr "k")]⟩]) :=
  ⟨rfl, rfl⟩

/-- C4 counterexample: two distinct names differing only by letter case
with equal counts have equal sort keys, and a stable sort then preserves
whichever enumeration order the category set iteration produced, so the
rank order of such a pair is not uniquely determined. -/
theorem claim_c4_counterexample :
    cat_key (fun _ => (0, 0)) "Apple" = cat_key (fun _ => (0, 0)) "apple" ∧
    "Apple" ≠ "apple" ∧
    sorted_categories (fun _ => (0, 0)) ["Apple", "apple"] = ["Apple", "apple"] ∧
    sorted_categories (fun _ => (0, 0)) ["apple", "Apple"] = ["apple", "Apple"] := by
  refine ⟨?_, by decide, rfl, rfl⟩
  unfold cat_key
  decide

theorem chars_lt_irrefl : ∀ as, chars_lt as as = false := by
  intro as
  induction as with
  | nil => rfl
  | cons a t ih =>
    unfold chars_lt
    simp [ih]

theorem chars_lt_asymm : ∀ as bs, chars_lt as bs = true → chars_lt bs as = false := by
  intro as
  induction as with
  | nil => intro bs h; cases bs <;> simp_all [chars_lt]
  | cons a t ih =>
    intro bs h
    cases bs with
    | nil => simp_all [chars_lt]
    | cons b u =>
      unfold chars_lt at h ⊢
      by_cases hab : a < b
      · rw [if_neg (asymm hab), if_pos hab]
      · by_cases hba : b < a
        · rw [if_neg hab, if_pos hba] at h
          exact absurd h (by simp)
        · rw [if_neg hab, if_neg hba] at h
          rw [if_neg hba, if_neg hab]
          exact ih u h

theorem chars_lt_conn : ∀ as bs, chars_lt as bs = false → chars_lt bs as = false → as = bs := by
  intro as
  induction as with
  | nil => intro bs h _; cases bs <;> simp_all [chars_lt]
  | cons a t ih =>
    intro bs h1 h2
    cases bs with
    | nil => simp_all [chars_lt]
    | cons b u =>
      unfold chars_lt at h1 h2
      by_cases hab : a < b
      · rw [if_pos hab] at h1
        exact absurd h1 (by simp)
      · by_cases hba : b < a
        · rw [if_pos hba] at h2
          exact absurd h2 (by simp)
        · have hab' : a = b := le_antisymm (not_lt.mp hba) (not_lt.mp hab)
          subst hab'
          rw [if_neg hab, if_neg hba] at h1
          rw [if_neg hab, if_neg hba] at h2
          rw [ih u h1 h2]

theorem str_eq_of_toList_eq {s t : String} (h : s.toList = t.toList) : s = t := by
  cases s with
  | mk d1 =>
    cases t with
    | mk d2 =>
      simp only [String.toList] at h
      rw [h]

theorem str_lt_total (s t : String) (hne : s ≠ t) :
    str_lt s t = true ∨ str_lt t s = true := by
  rcases hx : chars_lt s.toList t.toList with _ | _
  · rcases hy : chars_lt t.toList s.toList with _ | _
    · exact absurd (str_eq_of_toList_eq (chars_lt_conn _ _ hx hy)) hne
    · right; exact hy
  · left; exact hx

theorem str_lt_asymm (s t : String) (h : str_lt s t = true) : str_lt t s = false :=
  chars_lt_asymm _ _ h

theorem key_le_total (t : String → Nat × Nat) (a b : String) :
    key_le t a b = true ∨ key_le t b a = true := by
  unfold key_le
  dsimp only
  by_cases h1 : (cat_key t a).1 = (cat_key t b).1
  · by_cases h2 : (cat_key t a).2.1 = (cat_key t b).2.1
    · by_cases h3 : (cat_key t a).2.2 = (cat_key t b).2.2
      · left
        rw [if_neg (not_not_intro h1), if_neg (not_not_intro h2)]
        simp [h3]
      · rw [if_neg (not_not_intro h1), if_neg (not_not_intro h2),
          if_neg (not_not_intro h1.symm), if_neg (not_not_intro h2.symm)]
        rcases str_lt_total _ _ h3 with h | h
        · left; simp [h]
        · right; simp [h]
    · rw [if_neg (not_not_intro h1), if_pos h2, if_neg (not_not_intro h1.symm),
        if_pos (Ne.symm h2)]
      rcases lt_or_gt_of_ne h2 with h | h
      · left; simpa using h
      · right; simpa using h
  · rw [if_pos h1, if_pos (Ne.symm h1)]
    rcases lt_or_gt_of_ne h1 with h | h
    · left; simpa using h
    · right; simpa using h

theorem key_le_antisymm_iff (t : String → Nat × Nat) (a b : String) :
    (key_le t a b = true ∧ key_le t b a = true) ↔ cat_key t a = cat_key t b := by
  constructor
  · rintro ⟨hab, hba⟩
    unfold key_le at hab hba
    dsimp only at hab hba
    by_cases h1 : (cat_key t a).1 = (cat_key t b).1
    · by_cases h2 : (cat_key t a).2.1 = (cat_key t b).2.1
      · by_cases h3 : (cat_key t a).2.2 = (cat_key t b).2.2
        · exact Prod.ext h1 (Prod.ext h2 h3)
        · rw [if_neg (not_not_intro h1), if_neg (not_not_intro h2)] at hab
          rw [if_neg (not_not_intro h1.symm), if_neg (not_not_intro h2.symm)] at hba
          simp only [Bool.or_eq_true, decide_eq_true_eq] at hab hba
          rcases hab with hab | hab
          · rcases hba with hba | hba
            · exact absurd hba (by simp [str_lt_asymm _ _ hab])
            · exact absurd hba.symm h3
          · exact absurd hab h3
      · rw [if_neg (not_not_intro h1), if_pos h2] at hab
        rw [if_neg (not_not_intro h1.symm), if_pos (Ne.symm h2)] at hba
        simp only [decide_eq_true_eq] at hab hba
        omega
    · rw [if_pos h1] at hab
      rw [if_pos (Ne.symm h1)] at hba
      simp only [decide_eq_true_eq] at hab hba
      omega
  · intro h
    unfold key_le
    dsimp only
    rw [h]
    simp

theorem cat_key_eq_iff (t : String → Nat × Nat) (a b : String) :
    cat_key t a = cat_key t b ↔ (t a = t b ∧ py_lower a = py_lower b) := by
  unfold cat_key
  simp only [Prod.mk.injEq, neg_inj, Nat.cast_inj, Prod.ext_iff]
  tauto

/-- C4 (amended): the ranking comparison is total, and two categories
compare equal exactly when both window counts and the case-folded names
coincide; every other pair is strictly ordered, deterministically. -/
theorem claim_c4_key_order (totals : String → Nat × Nat) (a b : String) :
    (key_le totals a b = true ∨ key_le totals b a = true) ∧
    ((key_le totals a b = true ∧ key_le totals b a = true) ↔
      cat_key totals a = cat_key totals b) ∧
    (cat_key totals a = cat_key totals b ↔
      (totals a = totals b ∧ py_lower a = py_lower b)) :=
  ⟨key_le_total totals a b, key_le_antisymm_iff totals a b, cat_key_eq_iff totals a b⟩

/-- Witness for C4 on two concrete distinct names. -/
theorem claim_c4_witness :
    (key_le (fun _ => (0, 0)) "x" "y" = true ∨ key_le (fun _ => (0, 0)) "y" "x" = true) ∧
    (cat_key (fun _ => (0, 0)) "x" = cat_key (fun _ => (0, 0)) "y" ↔
      ((fun (_ : String) => ((0 : Nat), (0 : Nat))) "x" = (fun _ => (0, 0)) "y" ∧
        py_lower "x" = py_lower "y")) :=
  ⟨(claim_c4_key_order (fun _ => (0, 0)) "x" "y").1,
   (claim_c4_key_order (fun _ => (0, 0)) "x" "y").2.2⟩

theorem bump_count_eval (counts : CatCounts) (cat lbl c l : String) :
    bump_count counts cat lbl c l
      = counts c l + (if c = cat ∧ l = lbl then 1 else 0) := by
  unfold bump_count
  split <;> simp

theorem category_bump_eval (inP inC : Prop) [Decidable inP] [Decidable inC]
    (lblP lblC : String) (cs : CatCounts) (cat c l : String) :
    category_bump inP inC lblP lblC cs cat c l
      = cs c l + (if c = cat then
          ((if inP ∧ l = lblP then 1 else 0) + (if inC ∧ l = lblC then 1 else 0)) else 0) := by
  unfold category_bump
  by_cases hP : inP
  · by_cases hC : inC
    · rw [if_pos hP, if_pos hC, bump_count_eval, bump_count_eval]
      split_ifs <;> first | omega | tauto
    · rw [if_pos hP, if_neg hC, bump_count_eval]
      split_ifs <;> first | omega | tauto
  · by_cases hC : inC
    · rw [if_neg hP, if_pos hC, bump_count_eval]
      split_ifs <;> first | omega | tauto
    · rw [if_neg hP, if_neg hC]
      split_ifs <;> first | omega | tauto

theorem foldl_category_bump_eval (inP inC : Prop) [Decidable inP] [Decidable inC]
    (lblP lblC : String) (cats : List String) (counts : CatCounts) (c l : String) :
    (cats.foldl (category_bump inP inC lblP lblC) counts) c l
      = counts c l + (cats.count c) *
          ((if inP ∧ l = lblP then 1 else 0) + (if inC ∧ l = lblC then 1 else 0)) := by
  induction cats generalizing counts with
  | nil =>
    rw [List.foldl_nil, List.count_nil]
    omega
  | cons cat rest ih =>
    rw [List.foldl_cons, ih, category_bump_eval]
    have hcount : (cat :: rest).count c = rest.count c + (if c = cat then 1 else 0) := by
      rw [List.count_cons]
      by_cases h : c = cat
      · rw [if_pos h, if_pos (by simp [h])]
      · rw [if_neg h, if_neg (by simp [Ne.symm h])]
    rw [hcount]
    split_ifs <;> ring

theorem resolve_field_cons_ne (pk : String) (pv : AValue) (fields : Fields)
    (keys : List String) (h : ∀ k ∈ keys, (k == pk) = false) :
    resolve_field ((pk, pv) :: fields) keys = resolve_field fields keys := by
  induction keys with
  | nil => rfl
  | cons k rest ih =>
    have hk : (k == pk) = false := h k (List.mem_cons_self k rest)
    have hlk : field_lookup ((pk, pv) :: fields) k = field_lookup fields k := by
      unfold field_lookup
      simp only [List.lookup, hk]
    unfold resolve_field
    rw [hlk]
    cases field_lookup fields k with
    | some v => rfl
    | none => exact ih fun k' hk' => h k' (List.mem_cons_of_mem _ hk')

/-- C2 (amended): in `update_category_monthly_counts` a record
contributes to the per-category counts exactly when its date field parses
(date-only, no timezone shift) into the combined window range, it has at
least one category, and it falls in at least one window; the status field
is never consulted. -/
theorem claim_c2_category_counting (previous_window current_window : PyDate × PyDate)
    (counts : CatCounts) (fields : Fields) :
    (∀ v, category_record_step previous_window current_window counts (("status", v) :: fields)
        = category_record_step previous_window current_window counts fields) ∧
    (parse_airtable_date (resolve_field fields ["Order Date", "date", "Date"]) = none →
        category_record_step previous_window current_window counts fields = counts) ∧
    (∀ d, parse_airtable_date (resolve_field fields ["Order Date", "date", "Date"]) = some d →
        (d.lt previous_window.1 ∨ current_window.2.lt d) →
        category_record_step previous_window current_window counts fields = counts) ∧
    (extract_categories (resolve_field fields ["Category (from Product)", "Category"]) = [] →
        category_record_step previous_window current_window counts fields = counts) ∧
    (∀ d, parse_airtable_date (resolve_field fields ["Order Date", "date", "Date"]) = some d →
        ¬(d.lt previous_window.1 ∨ current_window.2.lt d) →
        ¬(previous_window.1.le d ∧ d.le previous_window.2) →
        ¬(current_window.1.le d ∧ d.le current_window.2) →
        category_record_step previous_window current_window counts fields = counts) ∧
    (∀ d, parse_airtable_date (resolve_field fields ["Order Date", "date", "Date"]) = some d →
        ¬(d.lt previous_window.1 ∨ current_window.2.lt d) →
        ((previous_window.1.le d ∧ d.le previous_window.2) ∨
          (current_window.1.le d ∧ d.le current_window.2)) →
        ∀ c l, category_record_step previous_window current_window counts fields c l
          = counts c l +
            (extract_categories (resolve_field fields
              ["Category (from Product)", "Category"])).count c *
            ((if (previous_window.1.le d ∧ d.le previous_window.2) ∧
                l = month_name previous_window.1.month then 1 else 0) +
             (if (current_window.1.le d ∧ d.le current_window.2) ∧
                l = month_name current_window.1.month then 1 else 0))) := by
  refine ⟨?_, ?_, ?_, ?_, ?_, ?_⟩
  · intro v
    have h1 : resolve_field (("status", v) :: fields) ["Order Date", "date", "Date"]
        = resolve_field fields ["Order Date", "date", "Date"] :=
      resolve_field_cons_ne _ _ _ _ (by decide)
    have h2 : resolve_field (("status", v) :: fields) ["Category (from Product)", "Category"]
        = resolve_field fields ["Category (from Product)", "Category"] :=
      resolve_field_cons_ne _ _ _ _ (by decide)
    simp only [category_record_step, h1, h2]
  · intro h
    simp only [category_record_step, h]
  · intro d hd hlt
    simp only [category_record_step, hd]
    rw [if_pos hlt]
  · intro hcats
    simp only [category_record_step]
    cases hp : parse_airtable_date (resolve_field fields ["Order Date", "date", "Date"]) with
    | none => rfl
    | some d =>
      split
      · rfl
      · rw [hcats]
        simp
  · intro d hd hrange hnp hnc
    simp only [category_record_step, hd]
    rw [if_neg hrange]
    split
    · rfl
    · rw [if_pos ⟨hnp, hnc⟩]
  · intro d hd hrange hin c l
    simp only [category_record_step, hd]
    rw [if_neg hrange]
    split
    · rename_i hcats
      rw [hcats]
      simp
    · rw [if_neg (by tauto)]
      exact foldl_category_bump_eval _ _ _ _ _ _ _ _

/-- C2 counterexample: a record whose status fails the required match
still increments its category's count, and an instant whose UTC+4
business date is 2024-02-01 is bucketed by its date-only parse
2024-01-31 into the previous window instead of the current one. -/
theorem claim_c2_counterexample :
    normalized (resolve_field
      [("status", .vStr "refunded"), ("Order Date", .vStr "2024-02-15"),
       ("Category (from Product)", .vStr "Gadgets")] ["status", "Status"])
      ≠ STATUS_EXPECTED_NORM ∧
    category_record_step (⟨2024, 1, 1⟩, ⟨2024, 1, 31⟩) (⟨2024, 2, 1⟩, ⟨2024, 2, 29⟩)
      (fun _ _ => 0)
      [("status", .vStr "refunded"), ("Order Date", .vStr "2024-02-15"),
       ("Category (from Product)", .vStr "Gadgets")] "Gadgets" "February" = 1 ∧
    parse_airtable_date (.vStr "2024-01-31T23:00:00Z") = some ⟨2024, 1, 31⟩ ∧
    to_dubai_date (.vStr "2024-01-31T23:00:00Z") = some ⟨2024, 2, 1⟩ ∧
    category_record_step (⟨2024, 1, 1⟩, ⟨2024, 1, 31⟩) (⟨2024, 2, 1⟩, ⟨2024, 2, 29⟩)
      (fun _ _ => 0)
      [("Order Date", .vStr "2024-01-31T23:00:00Z"), ("Category (from Product)", .vStr "Toys")]
      "Toys" "January" = 1 ∧
    category_record_step (⟨2024, 1, 1⟩, ⟨2024, 1, 31⟩) (⟨2024, 2, 1⟩, ⟨2024, 2, 29⟩)
      (fun _ _ => 0)
      [("Order Date", .vStr "2024-01-31T23:00:00Z"), ("Category (from Product)", .vStr "Toys")]
      "Toys" "February" = 0 := by
  refine ⟨by decide, by decide, by decide, by decide, by decide, by decide⟩

/-- Witness for C2 on a concrete in-window record with two categories. -/
theorem claim_c2_witness :
    category_record_step (⟨2024, 1, 1⟩, ⟨2024, 1, 31⟩) (⟨2024, 2, 1⟩, ⟨2024, 2, 29⟩)
      (fun _ _ => 0)
      [("Order Date", .vStr "2024-02-15"), ("Category (from Product)", .vStr "Gadgets, Toys")]
      "Gadgets" "February" = 1 ∧
    category_record_step (⟨2024, 1, 1⟩, ⟨2024, 1, 31⟩) (⟨2024, 2, 1⟩, ⟨2024, 2, 29⟩)
      (fun _ _ => 0)
      (("status", .vStr "refunded") ::
        [("Order Date", .vStr "2024-02-15"), ("Category (from Product)", .vStr "Gadgets, Toys")])
      = category_record_step (⟨2024, 1, 1⟩, ⟨2024, 1, 31⟩) (⟨2024, 2, 1⟩, ⟨2024, 2, 29⟩)
      (fun _ _ => 0)
      [("Order Date", .vStr "2024-02-15"), ("Category (from Product)", .vStr "Gadgets, Toys")] := by
  have h := claim_c2_category_counting (⟨2024, 1, 1⟩, ⟨2024, 1, 31⟩) (⟨2024, 2, 1⟩, ⟨2024, 2, 29⟩)
    (fun _ _ => 0)
    [("Order Date", .vStr "2024-02-15"), ("Category (from Product)", .vStr "Gadgets, Toys")]
  constructor
  · have hc := h.2.2.2.2.2 ⟨2024, 2, 15⟩ (by decide) (by decide) (Or.inr (by decide))
      "Gadgets" "February"
    rw [hc]
    decide
  · exact h.1 (.vStr "refunded")

/-- C3 counterexample: with overlapping windows where the previous
window extends past the current window's end, a status-matching record
whose business date lies in exactly the previous window is dropped by the
combined-range pre-filter and accumulated into neither bucket. -/
theorem claim_c3_counterexample :
    normalized (resolve_field
      [("status", .vStr "captured"), ("created_date", .vDate ⟨2024, 3, 15⟩ "2024-03-15")]
      ["status", "Status"]) = STATUS_EXPECTED_NORM ∧
    to_dubai_date (resolve_field
      [("status", .vStr "captured"), ("created_date", .vDate ⟨2024, 3, 15⟩ "2024-03-15")]
      ["created_date", "createdDate", "Created Date", "Order Date", "date", "Date"])
      = some ⟨2024, 3, 15⟩ ∧
    (PyDate.le ⟨2024, 1, 1⟩ ⟨2024, 3, 15⟩ ∧ PyDate.le ⟨2024, 3, 15⟩ ⟨2024, 3, 31⟩) ∧
    ¬(PyDate.le ⟨2024, 2, 1⟩ ⟨2024, 3, 15⟩ ∧ PyDate.le ⟨2024, 3, 15⟩ ⟨2024, 2, 29⟩) ∧
    order_record_step (⟨2024, 1, 1⟩, ⟨2024, 3, 31⟩) (⟨2024, 2, 1⟩, ⟨2024, 2, 29⟩) ({}, {})
      [("status", .vStr "captured"), ("created_date", .vDate ⟨2024, 3, 15⟩ "2024-03-15")]
      = ({}, {}) := by
  refine ⟨by decide, by decide, by decide, by decide, rfl⟩

/-- C3 (amended): a status-matching record whose business date lies in
the combined range is accumulated into exactly the window(s) containing
it: one bucket when in exactly one window, both buckets (double-counted)
when the windows overlap on its date, and neither when in neither. -/
theorem claim_c3_window_attribution (previous_window current_window : PyDate × PyDate)
    (buckets : OrderBucket × OrderBucket) (fields : Fields) (d : PyDate)
    (hstatus : normalized (resolve_field fields ["status", "Status"]) = STATUS_EXPECTED_NORM)
    (hdate : to_dubai_date (resolve_field fields
      ["created_date", "createdDate", "Created Date", "Order Date", "date", "Date"]) = some d)
    (hrange : ¬(d.lt previous_window.1 ∨ current_window.2.lt d)) :
    ((previous_window.1.le d ∧ d.le previous_window.2) →
      ¬(current_window.1.le d ∧ d.le current_window.2) →
      order_record_step previous_window current_window buckets fields
        = (accumulate_order fields buckets.1, buckets.2)) ∧
    (¬(previous_window.1.le d ∧ d.le previous_window.2) →
      (current_window.1.le d ∧ d.le current_window.2) →
      order_record_step previous_window current_window buckets fields
        = (buckets.1, accumulate_order fields buckets.2)) ∧
    ((previous_window.1.le d ∧ d.le previous_window.2) →
      (current_window.1.le d ∧ d.le current_window.2) →
      order_record_step previous_window current_window buckets fields
        = (accumulate_order fields buckets.1, accumulate_order fields buckets.2)) ∧
    (¬(previous_window.1.le d ∧ d.le previous_window.2) →
      ¬(current_window.1.le d ∧ d.le current_window.2) →
      order_record_step previous_window current_window buckets fields = buckets) := by
  have hns : ¬(normalized (resolve_field fields ["status", "Status"]) ≠ STATUS_EXPECTED_NORM) :=
    not_not_intro hstatus
  refine ⟨?_, ?_, ?_, ?_⟩ <;> intro hp hc <;>
    simp only [order_record_step, hdate] <;>
    rw [if_neg hns, if_neg hrange]
  · rw [if_pos hp, if_neg hc]
  · rw [if_neg hp, if_pos hc]
  · rw [if_pos hp, if_pos hc]
  · rw [if_neg hp, if_neg hc]

/-- Witness for C3: a record in the overlap of two overlapping windows
is accumulated into both buckets. -/
theorem claim_c3_witness :
    order_record_step (⟨2024, 2, 1⟩, ⟨2024, 2, 29⟩) (⟨2024, 2, 10⟩, ⟨2024, 3, 5⟩) ({}, {})
      [("Status", .vStr "Captured"), ("date", .vStr "2024-02-15")]
      = (accumulate_order [("Status", .vStr "Captured"), ("date", .vStr "2024-02-15")] {},
         accumulate_order [("Status", .vStr "Captured"), ("date", .vStr "2024-02-15")] {}) ∧
    accumulate_order [("Status", .vStr "Captured"), ("date", .vStr "2024-02-15")]
      ({} : OrderBucket) = { orders_all := 1 } := by
  have h := claim_c3_window_attribution (⟨2024, 2, 1⟩, ⟨2024, 2, 29⟩) (⟨2024, 2, 10⟩, ⟨2024, 3, 5⟩)
    ({}, {}) [("Status", .vStr "Captured"), ("date", .vStr "2024-02-15")] ⟨2024, 2, 15⟩
    (by decide) (by decide) (by decide)
  exact ⟨h.2.2.1 (by decide) (by decide), rfl⟩

end SpendSync
